import Mathlib

/-!
Verification of the page-selection resolver and watermark logic of a
browser-based PDF utility (split / merge / rotate / crop / watermark tools).

The definitions below are shallow embeddings of the TypeScript functions
`splitPdf` and `addWatermark`:
  * `splitPlan` models the page-index plan computed by `splitPdf` for each of
    its five modes (`each`, `ranges`, `selected`, `delete`, `extract`),
    including the JavaScript truthiness guards and the fall-through `throw`.
  * `jsParseInt` models JavaScript `parseInt` restricted to base 10.
  * `watermarkOrigin` models the rotated-text draw-origin computation.
  * `templateChars` models the per-page placeholder substitution.
-/

/-- The five values of `splitPdf`'s `mode` parameter. -/
inductive SplitMode
  | each
  | ranges
  | selected
  | delete
  | extract
deriving DecidableEq

/-- JavaScript `String.prototype.split(sep)` for a single-character
separator, on char lists: `"".split(',') = [""]`, `"a,b".split(',') = ["a","b"]`. -/
def splitOnSep (sep : Char) : List Char → List (List Char)
  | [] => [[]]
  | c :: rest =>
    let r := splitOnSep sep rest
    if c = sep then [] :: r
    else (c :: r.headD []) :: r.tail

/-- ASCII whitespace test used to model `String.prototype.trim` /
`parseInt`'s leading-whitespace skipping. -/
def isWsChar (c : Char) : Bool :=
  c = ' ' || c = '\t' || c = '\n' || c = '\r'

/-- JavaScript `String.prototype.trim` on char lists (ASCII whitespace). -/
def trimChars (cs : List Char) : List Char :=
  ((cs.dropWhile isWsChar).reverse.dropWhile isWsChar).reverse

/-- Numeric value of a nonempty run of decimal digit characters. -/
def digitsVal (ds : List Char) : Nat :=
  ds.foldl (fun a c => a * 10 + (c.toNat - 48)) 0

/-- Longest decimal-digit run at the front of the input, with its value;
`none` when the input does not start with a digit. -/
def leadDigitsVal (cs : List Char) : Option Nat :=
  let ds := cs.takeWhile Char.isDigit
  if ds = [] then none else some (digitsVal ds)

/-- JavaScript `parseInt(s)` (base 10): skip leading whitespace, optional
sign, then the longest digit run; `none` models `NaN`. -/
def jsParseInt (cs : List Char) : Option Int :=
  match cs.dropWhile isWsChar with
  | [] => none
  | c :: rest =>
    if c = '-' then (leadDigitsVal rest).map (fun n => -(n : Int))
    else if c = '+' then (leadDigitsVal rest).map Int.ofNat
    else (leadDigitsVal (c :: rest)).map Int.ofNat

/-- The integers from `s` to `e` inclusive, empty when `s > e`: the index
sequence of the loop `for (let j = start; j <= end; j++)`. -/
def intRangeList (s e : Int) : List Int :=
  (List.range (e + 1 - s).toNat).map (fun k => s + k)

/-- The `ranges` mode bounds check and view lookup: a 1-based position `j` maps
to view element `j-1` when `1 ≤ j ≤ viewSize`, else contributes nothing
(`if (j > 0 && j <= availableIndices.length) pageIndices.push(...)`). -/
def inViewIdx (view : List Nat) (j : Int) : Option Nat :=
  if 0 < j ∧ j ≤ (view.length : Int) then view[(j - 1).toNat]? else none

/-- Page indices contributed by one comma-separated token of the range
string: a token containing `-` is split there and its first two pieces are
parsed as `start`/`end` (a `NaN` bound yields a zero-iteration loop); a
token without `-` is a single 1-based position. -/
def resolveToken (view : List Nat) (tok : List Char) : List Nat :=
  if tok.contains '-' then
    match jsParseInt ((splitOnSep '-' tok).headD []),
          jsParseInt (((splitOnSep '-' tok).drop 1).headD []) with
    | some s, some e => (intRangeList s e).filterMap (inViewIdx view)
    | _, _ => []
  else
    match jsParseInt tok with
    | some p => (inViewIdx view p).toList
    | none => []

/-- The `ranges` mode: split the range string on commas, trim each token, one
group of page indices per token in token order. -/
def resolveRanges (view : List Nat) (cs : List Char) : List (List Nat) :=
  ((splitOnSep ',' cs).map trimChars).map (resolveToken view)

/-- The `selected` mode: one singleton group per supplied 0-based view position
that passes `idx >= 0 && idx < availableIndices.length`; out-of-range
positions produce no group. -/
def selectedGroups (view : List Nat) (sel : List Int) : List (List Nat) :=
  sel.filterMap (fun idx =>
    if 0 ≤ idx ∧ idx < (view.length : Int) then
      (view[Int.toNat idx]?).map (fun v => [v])
    else none)

/-- The `delete` mode: the kept indices — for each view position `i` in
ascending order, `view[i]` is kept unless `i` is in the excluded list. -/
def deleteKeep (view : List Nat) (sel : List Int) : List Nat :=
  (List.range view.length).filterMap (fun i =>
    if Int.ofNat i ∈ sel then none else view[i]?)

/-- The `extract` mode: the single combined group — supplied positions filtered
to the in-range ones, each mapped to its view element, in supplied order. -/
def extractGroup (view : List Nat) (sel : List Int) : List Nat :=
  sel.filterMap (fun idx =>
    if 0 ≤ idx ∧ idx < (view.length : Int) then view[Int.toNat idx]? else none)

/-- Message of the `throw new Error(...)` at the end of `splitPdf`. -/
def invalidModeMsg : String := "无效的拆分模式"

/-- The page-index plan computed by `splitPdf`. Mirrors the JavaScript
`if`/`else if` chain: each branch fires only when its mode matches AND its
extra parameters are truthy (`ranges` must be a nonempty string; `selected`
and `extract` need a nonempty position list; `delete` needs the list
present, possibly empty); otherwise control falls through to the final
`throw new Error('无效的拆分模式')`, modelled as `Except.error`. -/
def splitPlan (mode : SplitMode) (view : List Nat)
    (rangesStr : Option (List Char)) (sel : Option (List Int)) :
    Except String (List (List Nat)) :=
  match mode with
  | SplitMode.each => Except.ok (view.map (fun v => [v]))
  | SplitMode.ranges =>
    match rangesStr with
    | some cs =>
      if cs = [] then Except.error invalidModeMsg
      else Except.ok (resolveRanges view cs)
    | none => Except.error invalidModeMsg
  | SplitMode.selected =>
    match sel with
    | some l =>
      if l = [] then Except.error invalidModeMsg
      else Except.ok (selectedGroups view l)
    | none => Except.error invalidModeMsg
  | SplitMode.delete =>
    match sel with
    | some l => Except.ok [deleteKeep view l]
    | none => Except.error invalidModeMsg
  | SplitMode.extract =>
    match sel with
    | some l =>
      if l = [] then Except.error invalidModeMsg
      else Except.ok [extractGroup view l]
    | none => Except.error invalidModeMsg

/-- In `addWatermark`: the `x` component of the rotated half-extent vector,
`rotatedVX = vX * cos - vY * sin` with `vX = textWidth / 2`,
`vY = textHeight / 2` and the angle converted from degrees to radians. -/
noncomputable def rotHalfX (rotationAngle textWidth textHeight : ℝ) : ℝ :=
  textWidth / 2 * Real.cos (rotationAngle * Real.pi / 180)
    - textHeight / 2 * Real.sin (rotationAngle * Real.pi / 180)

/-- In `addWatermark`: the `y` component of the rotated half-extent vector,
`rotatedVY = vX * sin + vY * cos`. -/
noncomputable def rotHalfY (rotationAngle textWidth textHeight : ℝ) : ℝ :=
  textWidth / 2 * Real.sin (rotationAngle * Real.pi / 180)
    + textHeight / 2 * Real.cos (rotationAngle * Real.pi / 180)

/-- In `addWatermark`: the text draw origin `(drawX, drawY)` — the anchor-derived
center `(width * xRatio, height * (1 - yRatio))` minus the rotated
half-extent vector. -/
noncomputable def watermarkOrigin (pageWidth pageHeight xRatio yRatio
    rotationAngle textWidth textHeight : ℝ) : ℝ × ℝ :=
  (pageWidth * xRatio - rotHalfX rotationAngle textWidth textHeight,
   pageHeight * (1 - yRatio) - rotHalfY rotationAngle textWidth textHeight)

/-- JavaScript `v || d` for an optional numeric option `v`: the default `d`
is used when `v` is absent OR when the supplied number is falsy (zero). -/
def jsNumOr (v : Option ℚ) (d : ℚ) : ℚ :=
  match v with
  | none => d
  | some x => if x = 0 then d else x

/-- Models `const textSize = options.size || 50` in the text branch of `addWatermark`. -/
def effTextSize (size : Option ℚ) : ℚ := jsNumOr size 50

/-- Models `const opacity = options.opacity || 0.5` in the text branch of `addWatermark`. -/
def effOpacityText (opacity : Option ℚ) : ℚ := jsNumOr opacity (1 / 2)

/-- Models `opacity: options.opacity || 0.5` in the file (drawPage) branch of `addWatermark`. -/
def effOpacityFile (opacity : Option ℚ) : ℚ := jsNumOr opacity (1 / 2)

/-- The `\x7b` character that opens a placeholder. -/
def lbChar : Char := Char.ofNat 123

/-- The `\x7d` character that closes a placeholder. -/
def rbChar : Char := Char.ofNat 125

/-- The literal pattern of the `/\x7bpage\x7d/g` regex. -/
def pagePat : List Char := [lbChar, 'p', 'a', 'g', 'e', rbChar]

/-- The literal pattern of the `/\x7btotal\x7d/g` regex. -/
def totalPat : List Char := [lbChar, 't', 'o', 't', 'a', 'l', rbChar]

/-- The literal opening of the `/\x7bpage:(\d+)\x7d/g` regex, up to the colon. -/
def padPatHead : List Char := [lbChar, 'p', 'a', 'g', 'e', ':']

/-- Decimal digit characters of `n.toString()`, via fuel-bounded recursion. -/
def natCharsAux : Nat → Nat → List Char
  | 0, _ => []
  | fuel + 1, n =>
    if n < 10 then [Char.ofNat (48 + n)]
    else natCharsAux fuel (n / 10) ++ [Char.ofNat (48 + n % 10)]

/-- JavaScript `n.toString()` for a nonnegative integer. -/
def natChars (n : Nat) : List Char := natCharsAux (n + 1) n

/-- JavaScript `s.padStart(n, pad)`: left-pad to length `n` (no-op when the
input is already at least that long). -/
def padStartChars (cs : List Char) (n : Nat) (pad : Char) : List Char :=
  List.replicate (n - cs.length) pad ++ cs

/-- One global-replace pass `text.replace(pat, repl)` for a literal
pattern: leftmost match, non-overlapping, scanning resumes after the
replacement. The counter argument holds the number of characters still to
be emitted-and-skipped from the current match (0 while scanning). -/
def replaceLitA (pat repl : List Char) : Nat → List Char → List Char
  | _, [] => []
  | skip + 1, _ :: cs => replaceLitA pat repl skip cs
  | 0, c :: cs =>
    if pat != [] && pat.isPrefixOf (c :: cs) then
      repl ++ replaceLitA pat repl (pat.length - 1) cs
    else
      c :: replaceLitA pat repl 0 cs

/-- JavaScript `text.replace(/lit/g, repl)` for a literal pattern `lit`. -/
def replaceLit (pat repl cs : List Char) : List Char :=
  replaceLitA pat repl 0 cs

/-- One global-replace pass of the padded-page regex, replacing each
occurrence of the placeholder opening, a nonempty digit run and the closing
character by the page number string zero-padded to the captured width. -/
def replacePadA (pd : List Char) : Nat → List Char → List Char
  | _, [] => []
  | skip + 1, _ :: cs => replacePadA pd skip cs
  | 0, c :: cs =>
    if padPatHead.isPrefixOf (c :: cs) && (cs.drop 5).takeWhile Char.isDigit != []
        && ((cs.drop 5).dropWhile Char.isDigit).head? == some rbChar then
      padStartChars pd (digitsVal ((cs.drop 5).takeWhile Char.isDigit)) '0'
        ++ replacePadA pd (5 + ((cs.drop 5).takeWhile Char.isDigit).length + 1) cs
    else
      c :: replacePadA pd 0 cs

/-- JavaScript `text.replace(` padded-page regex `/g, ...)`. -/
def replacePadAll (pd cs : List Char) : List Char :=
  replacePadA pd 0 cs

/-- Per-page placeholder substitution of `addWatermark`, for 0-based page
index `idx` of a document with `total` pages: replace every occurrence of
the page placeholder by the 1-based page number, then every occurrence of
the total placeholder by the page count, then every padded-page placeholder
by the zero-padded page number — in that order. -/
def templateChars (text : List Char) (idx total : Nat) : List Char :=
  replacePadAll (natChars (idx + 1))
    (replaceLit totalPat (natChars total)
      (replaceLit pagePat (natChars (idx + 1)) text))

/-- C8: In all/each mode, resolving on a view of size N returns exactly N
groups, each the singleton of the view's physical index at that position,
in view order, covering every view position exactly once. -/
theorem each_mode_plan (view : List Nat) :
    ∃ gs, splitPlan SplitMode.each view none none = Except.ok gs ∧
      gs.length = view.length ∧
      ∀ i : Nat, gs[i]? = (view[i]?).map (fun v => [v]) := by
  refine ⟨view.map (fun v => [v]), rfl, by simp, fun i => ?_⟩
  exact List.getElem?_map _ view i

/-- C7: In selected and extract modes the output preserves exactly the order
in which the 0-based view positions were supplied: `[3, 0]` yields `view[3]`
before `view[0]`; selected produces one singleton group per supplied
in-range position while extract puts all resolved indices into one group. -/
theorem selection_order_preserved :
    (∀ v0 v1 v2 v3 v4 : Nat,
      splitPlan SplitMode.extract [v0, v1, v2, v3, v4] none (some [3, 0])
          = Except.ok [[v3, v0]] ∧
      splitPlan SplitMode.selected [v0, v1, v2, v3, v4] none (some [3, 0])
          = Except.ok [[v3], [v0]]) ∧
    (∀ (view : List Nat) (idx : Int) (rest : List Int),
      splitPlan SplitMode.extract view none (some (idx :: rest))
          = Except.ok [(idx :: rest).filterMap (fun i =>
              if 0 ≤ i ∧ i < (view.length : Int) then view[Int.toNat i]? else none)] ∧
      splitPlan SplitMode.selected view none (some (idx :: rest))
          = Except.ok ((idx :: rest).filterMap (fun i =>
              if 0 ≤ i ∧ i < (view.length : Int) then
                (view[Int.toNat i]?).map (fun v => [v])
              else none))) := by
  refine ⟨fun v0 v1 v2 v3 v4 => ⟨rfl, rfl⟩, fun view idx rest => ⟨?_, ?_⟩⟩
  · simp [splitPlan, extractGroup]
  · simp [splitPlan, selectedGroups]

/-- C6: In delete mode the result is exactly one group containing the
physical indices at every view position not in the excluded set, in
ascending view-position order, independent of the order (and multiplicity)
in which the excluded positions were supplied; excluding positions 1 and 3
on a view of size 5 keeps `[v0, v2, v4]`. -/
theorem delete_mode_semantics :
    (∀ view sel, splitPlan SplitMode.delete view none (some sel)
        = Except.ok [deleteKeep view sel]) ∧
    (∀ view sel sel', (∀ i : Int, i ∈ sel ↔ i ∈ sel') →
        deleteKeep view sel = deleteKeep view sel') ∧
    (∀ v0 v1 v2 v3 v4 : Nat,
      deleteKeep [v0, v1, v2, v3, v4] [1, 3] = [v0, v2, v4] ∧
      deleteKeep [v0, v1, v2, v3, v4] [3, 1] = [v0, v2, v4]) := by
  refine ⟨fun view sel => rfl, fun view sel sel' h => ?_,
    fun v0 v1 v2 v3 v4 => ⟨rfl, rfl⟩⟩
  unfold deleteKeep
  apply List.filterMap_congr
  intro i _
  by_cases hi : Int.ofNat i ∈ sel
  · rw [if_pos hi, if_pos ((h _).mp hi)]
  · rw [if_neg hi, if_neg (fun hc => hi ((h _).mpr hc))]

/-- Witness for C6: exclusion lists `[0]` and `[0, 0]` describe the same
set, hence the same kept indices. -/
theorem delete_mode_semantics_witness : deleteKeep [7, 8] [0] = deleteKeep [7, 8] [0, 0] :=
  delete_mode_semantics.2.1 [7, 8] [0] [0, 0] (fun i => by simp)

/-- The loop `for (let j = start; j <= end; j++)` runs zero times when
`start > end`. -/
theorem intRangeList_nil {s e : Int} (h : e < s) : intRangeList s e = [] := by
  unfold intRangeList
  have h0 : (e + 1 - s).toNat = 0 := by omega
  rw [h0]
  rfl

/-- C1: ranges-mode semantics — one group per comma-separated token in token
order; a dash token is parsed as two integers in literal order with no swap
(start > end gives zero indices); a dashless token is a single integer; a
1-based position p resolves to view element p-1 exactly when
1 ≤ p ≤ viewSize and contributes nothing otherwise; on a view of size 5,
token 1-3 gives the first three view elements, token 8 gives the empty
group, and the input string consisting of 1-3 and 5 gives two groups. -/
theorem ranges_token_semantics :
    (∀ (view : List Nat) (cs : List Char),
        (resolveRanges view cs).length = (splitOnSep ',' cs).length) ∧
    (∀ (view : List Nat) (cs : List Char) (i : Nat),
        (resolveRanges view cs)[i]?
          = (((splitOnSep ',' cs).map trimChars)[i]?).map (resolveToken view)) ∧
    (∀ (view : List Nat) (tok : List Char) (s e : Int),
        tok.contains '-' = true →
        jsParseInt ((splitOnSep '-' tok).headD []) = some s →
        jsParseInt (((splitOnSep '-' tok).drop 1).headD []) = some e →
        e < s → resolveToken view tok = []) ∧
    (∀ (view : List Nat) (tok : List Char) (p : Int),
        tok.contains '-' = false → jsParseInt tok = some p →
        ((0 < p ∧ p ≤ (view.length : Int)) →
            resolveToken view tok = (view[(p - 1).toNat]?).toList) ∧
        (¬(0 < p ∧ p ≤ (view.length : Int)) → resolveToken view tok = [])) ∧
    (∀ v0 v1 v2 v3 v4 : Nat,
      resolveRanges [v0, v1, v2, v3, v4] ['1', '-', '3', ',', ' ', '5']
          = [[v0, v1, v2], [v4]] ∧
      resolveToken [v0, v1, v2, v3, v4] ['8'] = [] ∧
      resolveToken [v0, v1, v2, v3, v4] ['1', '-', '3'] = [v0, v1, v2]) := by
  refine ⟨fun view cs => by simp [resolveRanges], fun view cs i => ?_, ?_, ?_,
    fun v0 v1 v2 v3 v4 => ⟨rfl, rfl, rfl⟩⟩
  · exact List.getElem?_map _ _ i
  · intro view tok s e hdash hs he hlt
    rw [resolveToken, if_pos hdash, hs, he]
    show (intRangeList s e).filterMap (inViewIdx view) = []
    rw [intRangeList_nil hlt]
    rfl
  · intro view tok p hdash hp
    have hneg : ¬(tok.contains '-' = true) := by
      simp only [hdash]
      exact Bool.false_ne_true
    constructor
    · intro hin
      rw [resolveToken, if_neg hneg, hp]
      show (inViewIdx view p).toList = _
      rw [inViewIdx, if_pos hin]
    · intro hout
      rw [resolveToken, if_neg hneg, hp]
      show (inViewIdx view p).toList = []
      rw [inViewIdx, if_neg hout]
      rfl

/-- Witness for C1: the reversed token 3-1 on a two-page view contributes
zero indices. -/
theorem ranges_token_semantics_witness : resolveToken [1, 2] ['3', '-', '1'] = [] :=
  ranges_token_semantics.2.2.1 [1, 2] ['3', '-', '1'] 3 1 rfl rfl rfl (by decide)

/-- C3 counterexample: in ranges mode an empty range string does NOT yield
zero groups — `splitPdf`'s guard `mode === 'ranges' && ranges` rejects the
falsy empty string and control falls through to the `throw`. -/
theorem empty_ranges_raises :
    splitPlan SplitMode.ranges [0, 1, 2] (some []) none
      = Except.error invalidModeMsg := rfl

/-- C3 (amended): an empty range string (or a missing or empty selection
list where one is required) falls through to the invalid-mode error; a
NONEMPTY range string never raises, and an unparseable one yields only
empty groups; whenever a mode's parameter guard is satisfied resolution
succeeds, with malformed or out-of-range positions contributing nothing. -/
theorem resolver_error_behavior :
    (∀ view : List Nat, splitPlan SplitMode.ranges view (some []) none
        = Except.error invalidModeMsg) ∧
    (∀ (view : List Nat) (c : Char) (cs : List Char),
        splitPlan SplitMode.ranges view (some (c :: cs)) none
          = Except.ok (resolveRanges view (c :: cs))) ∧
    (∀ view : List Nat, resolveRanges view ['a', 'b', 'c'] = [[]]) ∧
    (∀ (view : List Nat) (i : Int) (l : List Int),
        splitPlan SplitMode.selected view none (some (i :: l))
          = Except.ok (selectedGroups view (i :: l)) ∧
        splitPlan SplitMode.extract view none (some (i :: l))
          = Except.ok [extractGroup view (i :: l)] ∧
        splitPlan SplitMode.delete view none (some (i :: l))
          = Except.ok [deleteKeep view (i :: l)]) ∧
    (∀ view : List Nat, splitPlan SplitMode.each view none none
        = Except.ok (view.map (fun v => [v]))) := by
  refine ⟨fun view => rfl, fun view c cs => ?_, fun view => rfl,
    fun view i l => ⟨?_, ?_, rfl⟩, fun view => rfl⟩
  · simp [splitPlan]
  · simp [splitPlan]
  · simp [splitPlan]

/-- Every index produced by the ranges-mode bounds check is a view element. -/
theorem inViewIdx_mem {view : List Nat} {j : Int} {p : Nat}
    (h : inViewIdx view j = some p) : p ∈ view := by
  unfold inViewIdx at h
  split at h
  · exact List.getElem?_mem h
  · exact absurd h (by simp)

/-- Every index contributed by a ranges-mode token is a view element. -/
theorem resolveToken_mem {view : List Nat} {tok : List Char} {p : Nat}
    (h : p ∈ resolveToken view tok) : p ∈ view := by
  unfold resolveToken at h
  split at h
  · split at h
    · rw [List.mem_filterMap] at h
      obtain ⟨j, _, hj⟩ := h
      exact inViewIdx_mem hj
    · exact absurd h (by simp)
  · split at h
    · rw [Option.mem_toList] at h
      exact inViewIdx_mem h
    · exact absurd h (by simp)

/-- C5: for every selection mode and every input, each physical page index
appearing in the successfully resolved plan is an element of the supplied
view: no mode ever emits an index that was not present in the view. -/
theorem plan_indices_subset_view (mode : SplitMode) (view : List Nat)
    (rangesStr : Option (List Char)) (sel : Option (List Int))
    (gs : List (List Nat))
    (h : splitPlan mode view rangesStr sel = Except.ok gs) :
    ∀ g ∈ gs, ∀ p ∈ g, p ∈ view := by
  intro g hg p hp
  cases mode <;> simp only [splitPlan] at h
  case each =>
    rw [Except.ok.injEq] at h
    subst h
    obtain ⟨v, hv, rfl⟩ := List.mem_map.mp hg
    rw [List.mem_singleton] at hp
    exact hp ▸ hv
  case ranges =>
    split at h
    · split at h
      · exact Except.noConfusion h
      · rw [Except.ok.injEq] at h
        subst h
        obtain ⟨tok, _, rfl⟩ := List.mem_map.mp hg
        exact resolveToken_mem hp
    · exact Except.noConfusion h
  case selected =>
    split at h
    · split at h
      · exact Except.noConfusion h
      · rw [Except.ok.injEq] at h
        subst h
        rw [selectedGroups, List.mem_filterMap] at hg
        obtain ⟨idx, _, hidx⟩ := hg
        split at hidx
        · obtain ⟨v, hv, rfl⟩ := Option.map_eq_some'.mp hidx
          rw [List.mem_singleton] at hp
          exact hp ▸ List.getElem?_mem hv
        · exact Option.noConfusion hidx
    · exact Except.noConfusion h
  case delete =>
    split at h
    · rw [Except.ok.injEq] at h
      subst h
      rw [List.mem_singleton] at hg
      subst hg
      rw [deleteKeep, List.mem_filterMap] at hp
      obtain ⟨i, _, hi⟩ := hp
      split at hi
      · exact Option.noConfusion hi
      · exact List.getElem?_mem hi
    · exact Except.noConfusion h
  case extract =>
    split at h
    · split at h
      · exact Except.noConfusion h
      · rw [Except.ok.injEq] at h
        subst h
        rw [List.mem_singleton] at hg
        subst hg
        rw [extractGroup, List.mem_filterMap] at hp
        obtain ⟨idx, _, hidx⟩ := hp
        split at hidx
        · exact List.getElem?_mem hidx
        · exact Option.noConfusion hidx
    · exact Except.noConfusion h

/-- Witness for C5: in each mode on the view with pages 4 and 9, the emitted
index 4 is indeed in the view. -/
theorem plan_indices_subset_view_witness : 4 ∈ [4, 9] :=
  plan_indices_subset_view SplitMode.each [4, 9] none none [[4], [9]] rfl
    [4] (by decide) 4 (by decide)

/-- C2: the watermark draw origin equals the anchor-derived center
`(w * ax, h * (1 - ay))` minus the half-extent vector `(tw/2, th/2)`
rotated counterclockwise by the angle converted to radians; for page
600 x 800, centered anchor, rotation 0 and text extent 100 x 20 the
origin is (250, 390). -/
theorem watermark_origin_formula :
    (∀ w h ax ay θ tw th : ℝ,
      watermarkOrigin w h ax ay θ tw th
        = (w * ax - (tw / 2 * Real.cos (θ * Real.pi / 180)
              - th / 2 * Real.sin (θ * Real.pi / 180)),
           h * (1 - ay) - (tw / 2 * Real.sin (θ * Real.pi / 180)
              + th / 2 * Real.cos (θ * Real.pi / 180)))) ∧
    watermarkOrigin 600 800 0.5 0.5 0 100 20 = (250, 390) := by
  constructor
  · intro w h ax ay θ tw th
    rfl
  · unfold watermarkOrigin rotHalfX rotHalfY
    norm_num [Real.cos_zero, Real.sin_zero]

/-- C4: rotation invariance at the center — adding the rotated half-extent
vector back to the returned origin reproduces the anchor-derived center
point for every anchor in the unit square and every rotation in [0, 360)
(exactly, so in particular within floating-point tolerance); and with zero
text extents the origin IS the anchor point for every rotation. -/
theorem watermark_center_roundtrip (w h ax ay θ tw th : ℝ)
    (hax0 : 0 ≤ ax) (hax1 : ax ≤ 1) (hay0 : 0 ≤ ay) (hay1 : ay ≤ 1)
    (hrot0 : 0 ≤ θ) (hrot1 : θ < 360) :
    ((watermarkOrigin w h ax ay θ tw th).1 + rotHalfX θ tw th = w * ax ∧
     (watermarkOrigin w h ax ay θ tw th).2 + rotHalfY θ tw th = h * (1 - ay)) ∧
    watermarkOrigin w h ax ay θ 0 0 = (w * ax, h * (1 - ay)) := by
  refine ⟨⟨?_, ?_⟩, ?_⟩
  · show w * ax - rotHalfX θ tw th + rotHalfX θ tw th = w * ax
    ring
  · show h * (1 - ay) - rotHalfY θ tw th + rotHalfY θ tw th = h * (1 - ay)
    ring
  · unfold watermarkOrigin rotHalfX rotHalfY
    norm_num

/-- Witness for C4: the round trip at the concrete page 600 x 800, centered
anchor, rotation 0, text extent 100 x 20. -/
theorem watermark_center_roundtrip_witness :
    ((watermarkOrigin 600 800 0.5 0.5 0 100 20).1 + rotHalfX 0 100 20 = 600 * 0.5 ∧
     (watermarkOrigin 600 800 0.5 0.5 0 100 20).2 + rotHalfY 0 100 20 = 800 * (1 - 0.5)) ∧
    watermarkOrigin 600 800 0.5 0.5 0 0 0 = (600 * 0.5, 800 * (1 - 0.5)) :=
  watermark_center_roundtrip 600 800 0.5 0.5 0 100 20 (by norm_num) (by norm_num)
    (by norm_num) (by norm_num) (by norm_num) (by norm_num)

/-- C10: a supplied opacity of 0 or text size of 0 is treated exactly like
an absent option — the defaults 0.5 (both the text and the file branch) and
50 apply whenever the supplied value is falsy, while a nonzero value such
as 1/4 or 12 is kept. -/
theorem falsy_option_defaults :
    effOpacityText (some 0) = effOpacityText none ∧ effOpacityText none = 1 / 2 ∧
    effOpacityFile (some 0) = effOpacityFile none ∧ effOpacityFile none = 1 / 2 ∧
    effTextSize (some 0) = effTextSize none ∧ effTextSize none = 50 ∧
    effOpacityText (some (1 / 4)) = 1 / 4 ∧ effTextSize (some 12) = 12 := by
  norm_num [effOpacityText, effOpacityFile, effTextSize, jsNumOr]

/-- Step equation of `replaceLitA` in scanning state. -/
theorem replaceLitA_cons0 (pat repl : List Char) (c : Char) (cs : List Char) :
    replaceLitA pat repl 0 (c :: cs) =
      if pat != [] && pat.isPrefixOf (c :: cs) then
        repl ++ replaceLitA pat repl (pat.length - 1) cs
      else
        c :: replaceLitA pat repl 0 cs := rfl

/-- Step equation of `replacePadA` in scanning state. -/
theorem replacePadA_cons0 (pd : List Char) (c : Char) (cs : List Char) :
    replacePadA pd 0 (c :: cs) =
      if padPatHead.isPrefixOf (c :: cs) && (cs.drop 5).takeWhile Char.isDigit != []
          && ((cs.drop 5).dropWhile Char.isDigit).head? == some rbChar then
        padStartChars pd (digitsVal ((cs.drop 5).takeWhile Char.isDigit)) '0'
          ++ replacePadA pd (5 + ((cs.drop 5).takeWhile Char.isDigit).length + 1) cs
      else
        c :: replacePadA pd 0 cs := rfl

/-- Lemma: `replaceLitA` in skipping state consumes the rest of a short input. -/
theorem replaceLitA_skip_all (pat repl : List Char) :
    ∀ (cs : List Char) (skip : Nat), cs.length ≤ skip →
      replaceLitA pat repl skip cs = [] := by
  intro cs
  induction cs with
  | nil => intro skip _; cases skip <;> rfl
  | cons c cs' ih =>
    intro skip hle
    cases skip with
    | zero => exact absurd hle (by simp)
    | succ k =>
      show replaceLitA pat repl k cs' = []
      exact ih k (by simpa using hle)

/-- Lemma: `replacePadA` in skipping state consumes the rest of a short input. -/
theorem replacePadA_skip_all (pd : List Char) :
    ∀ (cs : List Char) (skip : Nat), cs.length ≤ skip →
      replacePadA pd skip cs = [] := by
  intro cs
  induction cs with
  | nil => intro skip _; cases skip <;> rfl
  | cons c cs' ih =>
    intro skip hle
    cases skip with
    | zero => exact absurd hle (by simp)
    | succ k =>
      show replacePadA pd k cs' = []
      exact ih k (by simpa using hle)

/-- A nonempty literal pattern, given as the whole text, is replaced by the
replacement text: the whole-match case of a replace pass. -/
theorem replaceLitA_exact (pat repl : List Char) (hne : pat ≠ []) :
    replaceLitA pat repl 0 pat = repl := by
  cases pat with
  | nil => exact absurd rfl hne
  | cons q qt =>
    rw [replaceLitA_cons0]
    have hpre : ((q :: qt) != [] && (q :: qt).isPrefixOf (q :: qt)) = true := by
      simp
    rw [if_pos hpre]
    have hlen : (q :: qt).length - 1 = qt.length := by simp
    rw [hlen, replaceLitA_skip_all _ _ qt qt.length le_rfl, List.append_nil]

/-- A list whose first element differs from the text's first character is
not a prefix of the text. -/
theorem isPrefixOf_cons_false {q c : Char} (qt cs : List Char) (h : q ≠ c) :
    (q :: qt).isPrefixOf (c :: cs) = false := by
  have hstep : (q :: qt).isPrefixOf (c :: cs) = (q == c && qt.isPrefixOf cs) := rfl
  rw [hstep, beq_eq_false_iff_ne.mpr h, Bool.false_and]

/-- Characters emitted by `natCharsAux` are decimal digits, never the
placeholder-opening character. -/
theorem natCharsAux_no_lb (fuel n : Nat) : lbChar ∉ natCharsAux fuel n := by
  induction fuel generalizing n with
  | zero => simp [natCharsAux]
  | succ fuel ih =>
    have hd : ∀ m : Nat, m < 10 → Char.ofNat (48 + m) ≠ lbChar := by decide
    unfold natCharsAux
    split
    next hlt =>
      intro hmem
      rw [List.mem_singleton] at hmem
      exact hd n hlt hmem.symm
    next =>
      intro hmem
      rw [List.mem_append] at hmem
      rcases hmem with hmem | hmem
      · exact ih _ hmem
      · rw [List.mem_singleton] at hmem
        exact hd (n % 10) (Nat.mod_lt _ (by norm_num)) hmem.symm

/-- The decimal representation of a page number contains no
placeholder-opening character. -/
theorem natChars_no_lb (n : Nat) : lbChar ∉ natChars n :=
  natCharsAux_no_lb _ _

/-- A replace pass whose pattern opens with the placeholder-opening
character leaves text without that character unchanged. -/
theorem replaceLitA_no_lb {pat repl : List Char} (hpat : pat.head? = some lbChar) :
    ∀ cs : List Char, lbChar ∉ cs → replaceLitA pat repl 0 cs = cs := by
  intro cs
  induction cs with
  | nil => intro _; rfl
  | cons c cs' ih =>
    intro hcs
    rw [replaceLitA_cons0]
    cases pat with
    | nil => exact Option.noConfusion hpat
    | cons q qt =>
      have hq : q = lbChar := by
        have hh : (q :: qt).head? = some q := rfl
        rw [hh, Option.some.injEq] at hpat
        exact hpat
      have hqc : q ≠ c := by
        intro he
        apply hcs
        rw [← he, hq]
        exact List.mem_cons_self _ _
      rw [isPrefixOf_cons_false qt cs' hqc, Bool.and_false]
      simp only [Bool.false_eq_true, if_false]
      rw [ih (fun hm => hcs (List.mem_cons_of_mem _ hm))]

/-- The padded-page replace pass leaves text without the
placeholder-opening character unchanged. -/
theorem replacePadA_no_lb (pd : List Char) :
    ∀ cs : List Char, lbChar ∉ cs → replacePadA pd 0 cs = cs := by
  intro cs
  induction cs with
  | nil => intro _; rfl
  | cons c cs' ih =>
    intro hcs
    rw [replacePadA_cons0]
    have hlc : lbChar ≠ c := fun he => hcs (he ▸ List.mem_cons_self _ _)
    have hno : padPatHead.isPrefixOf (c :: cs') = false :=
      isPrefixOf_cons_false _ _ hlc
    rw [hno, Bool.false_and, Bool.false_and]
    simp only [Bool.false_eq_true, if_false]
    rw [ih (fun hm => hcs (List.mem_cons_of_mem _ hm))]

/-- A replace pass whose pattern opens with the placeholder-opening
character leaves text unchanged when the text's first position is not a
match and its tail has no placeholder-opening character. -/
theorem replaceLitA_head_nomatch {pat repl : List Char} (c : Char) (cs : List Char)
    (hno : (pat != [] && pat.isPrefixOf (c :: cs)) = false)
    (hpat : pat.head? = some lbChar) (hcs : lbChar ∉ cs) :
    replaceLitA pat repl 0 (c :: cs) = c :: cs := by
  rw [replaceLitA_cons0, hno]
  simp only [Bool.false_eq_true, if_false]
  rw [replaceLitA_no_lb hpat cs hcs]

/-- C9: per-page templating replaces every page placeholder by the 1-based
page number, every total placeholder by the total page count, and every
padded-page placeholder by the page number zero-padded to the captured
width, in that replacement order (so a page placeholder substituted by the
first pass can feed the width of a padded-page placeholder); on 0-based
page 2 of a 10-page document the sample text yields Page 3 of 10 and the
03-padded placeholder yields 003. -/
theorem templating_semantics :
    templateChars ("Page ".toList ++ pagePat ++ " of ".toList ++ totalPat) 2 10
        = "Page 3 of 10".toList ∧
    templateChars (padPatHead ++ ['0', '3', rbChar]) 2 10 = "003".toList ∧
    templateChars (padPatHead ++ pagePat ++ [rbChar]) 2 10 = "003".toList ∧
    (∀ idx total : Nat, templateChars pagePat idx total = natChars (idx + 1)) ∧
    (∀ idx total : Nat, templateChars totalPat idx total = natChars total) ∧
    (∀ idx total : Nat,
      templateChars (padPatHead ++ ['0', '3', rbChar]) idx total
        = padStartChars (natChars (idx + 1)) 3 '0') := by
  refine ⟨by decide, by decide, by decide, ?_, ?_, ?_⟩
  · intro idx total
    unfold templateChars replaceLit replacePadAll
    rw [replaceLitA_exact pagePat (natChars (idx + 1)) (by decide),
      @replaceLitA_no_lb totalPat (natChars total) rfl _ (natChars_no_lb _)]
    exact replacePadA_no_lb _ _ (natChars_no_lb _)
  · intro idx total
    unfold templateChars replaceLit replacePadAll
    have htot : totalPat = lbChar :: ['t', 'o', 't', 'a', 'l', rbChar] := rfl
    rw [htot, @replaceLitA_head_nomatch pagePat (natChars (idx + 1)) lbChar
      ['t', 'o', 't', 'a', 'l', rbChar] (by decide) rfl (by decide), ← htot,
      replaceLitA_exact totalPat (natChars total) (by decide)]
    exact replacePadA_no_lb _ _ (natChars_no_lb _)
  · intro idx total
    unfold templateChars replaceLit replacePadAll
    have hpad : padPatHead ++ ['0', '3', rbChar]
        = lbChar :: ['p', 'a', 'g', 'e', ':', '0', '3', rbChar] := rfl
    rw [hpad, @replaceLitA_head_nomatch pagePat (natChars (idx + 1)) lbChar
      ['p', 'a', 'g', 'e', ':', '0', '3', rbChar] (by decide) rfl (by decide),
      @replaceLitA_head_nomatch totalPat (natChars total) lbChar
      ['p', 'a', 'g', 'e', ':', '0', '3', rbChar] (by decide) rfl (by decide),
      replacePadA_cons0, if_pos (by decide)]
    have h1 : digitsVal ((['p', 'a', 'g', 'e', ':', '0', '3', rbChar].drop 5).takeWhile
        Char.isDigit) = 3 := by decide
    have h2 : 5 + ((['p', 'a', 'g', 'e', ':', '0', '3', rbChar].drop 5).takeWhile
        Char.isDigit).length + 1 = 8 := by decide
    rw [h1, h2, replacePadA_skip_all _ _ 8 (by decide), List.append_nil]
